import Mathlib

/-
Verification development for the line-oriented transactional file editor
(`main.go`): the document-buffer operations (`replaceLine`,
`insertLineBefore`, `insertLineAfter`, `deleteLine`, `replaceStringInLine`,
`appendToFile`), the batch editor (`EditFile` together with
`createNewFile`), and the windowed reader (`ReadLines`).

Modelling conventions:
- A document is a `List String` of lines, exactly as the Go code holds
  `lines []string` after `strings.Split(fileContent, "\n")`.
- Go `int` fields (`line_number`, `count`) are modelled as `Int`.
- Go strings are modelled as Lean `String`; byte-level substring search on
  valid UTF-8 coincides with `Char`-level search (UTF-8 is
  self-synchronizing), and Go's rune stepping for an empty pattern
  coincides with `Char` stepping.
- The file system visible to one `EditFile`/`ReadLines` call is the single
  target path, modelled as `Option String` (`none` = the file does not
  exist).  Failing `os` calls other than not-exist on read are outside the
  model (the modelled file system always succeeds).  Error values are
  modelled by the exact Go error message where the message is built in
  `main.go`, and by a fixed descriptive string for errors that Go receives
  from the standard library (`"file does not exist"` for the
  `os.IsNotExist` read error).
- Directory creation performed via `os.MkdirAll` is recorded in the
  outcome as the list of directory arguments passed, in call order.
-/

namespace CodeEditingAgent

/-! ## Model of the Go standard library pieces the editor calls -/

/-- Splitting at a single separator character, the contract of Go
`strings.Split` for a one-character separator: the empty input yields one
empty field, and separators at the ends yield empty fields. -/
def splitChars (sep : Char) : List Char → List (List Char)
  | [] => [[]]
  | c :: rest =>
    match splitChars sep rest with
    | [] => if c = sep then [[], []] else [[c]]
    | h :: t => if c = sep then [] :: h :: t else (c :: h) :: t

/-- Model of Go `strings.Split(content, "\n")`. -/
def splitLines (content : String) : List String :=
  (splitChars '\n' content.data).map String.mk

/-- Joining with a separator, the contract of Go `strings.Join`. -/
def joinSep (sep : String) : List String → String
  | [] => ""
  | [x] => x
  | x :: rest => x ++ sep ++ joinSep sep rest

/-- Model of Go `strings.Join(lines, "\n")`. -/
def joinLines (lines : List String) : String :=
  joinSep "\n" lines

/-- Occurrence test used to reason about `strings.Replace`: `old` occurs
as a contiguous substring of `s`.  The recursion mirrors the left-to-right
scan of the replacement loop. -/
def containsSub (old : List Char) : List Char → Bool
  | [] => old.isEmpty
  | c :: rest => old.isPrefixOf (c :: rest) || containsSub old rest

/-- Replacement loop of Go `strings.Replace` for a non-empty pattern:
scan left to right, replace the leftmost occurrence, continue after it,
at most `n` times.  `n` is the (already capped) replacement budget of the
Go loop; surplus budget changes nothing because the scan simply reaches
the end of the string. -/
def replaceNonEmpty (old new : List Char) : List Char → Nat → List Char
  | s, 0 => s
  | [], _ + 1 => []
  | c :: rest, n + 1 =>
    if old.isPrefixOf (c :: rest) then
      new ++ replaceNonEmpty old new ((c :: rest).drop old.length) n
    else
      c :: replaceNonEmpty old new rest (n + 1)
termination_by s n => n + s.length
decreasing_by
  all_goals simp_wf
  all_goals omega

/-- Replacement loop of Go `strings.Replace` for an empty pattern:
insert `new` at the start and then after each rune, at most `n` times. -/
def replaceEmptyOld (new : List Char) : List Char → Nat → List Char
  | s, 0 => s
  | [], _ + 1 => new
  | c :: rest, n + 1 => new ++ c :: replaceEmptyOld new rest n

/-- Model of Go `strings.Replace(s, old, new, count)` at `Char` level:
returns `s` unchanged when `old = new` or `count = 0`; for an empty `old`
inserts `new` at up to `count` rune boundaries (all `length + 1` of them
when `count < 0`); otherwise replaces up to `count` leftmost
non-overlapping occurrences of `old` (`count < 0` meaning all — a budget
of `s.length` is enough, since a non-empty pattern has at most `s.length`
occurrences). -/
def goStringsReplace (s old new : String) (count : Int) : String :=
  if old = new ∨ count = 0 then s
  else if old.data.isEmpty then
    let m := s.length + 1
    let n := if count < 0 ∨ (m : Int) < count then m else count.toNat
    String.mk (replaceEmptyOld new.data s.data n)
  else
    let n := if count < 0 then s.data.length else count.toNat
    String.mk (replaceNonEmpty old.data new.data s.data n)

/-- Helper for `goPathDir`: Go `path.Split` keeps the prefix of the path
up to and including the final slash (empty if there is no slash). -/
def goPathSplitDir (p : String) : String :=
  String.mk ((p.data.reverse.dropWhile (fun c => c ≠ '/')).reverse)

/-- Segment processing of Go `path.Clean`: empty and `"."` segments are
dropped; `".."` pops the previous kept segment, except that at the root of
a rooted path it is dropped and at the front of an unrooted path it is
kept.  `acc` holds the kept segments in reverse. -/
def cleanSegs (rooted : Bool) : List String → List String → List String
  | acc, [] => acc.reverse
  | acc, seg :: rest =>
    if seg = "" ∨ seg = "." then cleanSegs rooted acc rest
    else if seg = ".." then
      match acc with
      | top :: accTail =>
        if top = ".." then cleanSegs rooted (".." :: top :: accTail) rest
        else cleanSegs rooted accTail rest
      | [] =>
        if rooted then cleanSegs rooted [] rest
        else cleanSegs rooted [".."] rest
    else cleanSegs rooted (seg :: acc) rest

/-- Model of Go `path.Clean` via segment normalization (extensionally the
lazybuf algorithm of the standard library). -/
def goPathClean (p : String) : String :=
  if p = "" then "."
  else
    let rooted := p.data.head? == some '/'
    let joined := joinSep "/"
      (cleanSegs rooted [] ((splitChars '/' p.data).map String.mk))
    if rooted then
      if joined = "" then "/" else "/" ++ joined
    else
      if joined = "" then "." else joined

/-- Model of Go `path.Dir`: the cleaned directory part of the split. -/
def goPathDir (p : String) : String :=
  goPathClean (goPathSplitDir p)

/-! ## Document-buffer operations (`main.go`) -/

/-- Model of `replaceLine`: bounds-check `lineNumber` against the current
document, then splice `newContent` in place of line `lineNumber` (the
three `copy` calls write exactly `take (n-1) ++ newContent ++ drop n`). -/
def replaceLine (content : List String) (lineNumber : Int)
    (newContent : List String) : Except String (List String) :=
  if lineNumber < 1 ∨ lineNumber > content.length then
    .error "line number out of bounds"
  else
    let index := (lineNumber - 1).toNat
    .ok (content.take index ++ newContent ++ content.drop (index + 1))

/-- Model of `insertLineBefore`: bounds-check, then splice `newContent`
at index `max (lineNumber - length newContent) 0` (the Go code computes
`insertLine := max(lineNumber-len(newContent), 0)` and copies
`content[:insertLine] ++ newContent ++ content[insertLine:]`). -/
def insertLineBefore (content : List String) (lineNumber : Int)
    (newContent : List String) : Except String (List String) :=
  if lineNumber < 1 ∨ lineNumber > content.length then
    .error "line number out of bounds"
  else
    let insertLine := (max (lineNumber - newContent.length) 0).toNat
    .ok (content.take insertLine ++ newContent ++ content.drop insertLine)

/-- Model of `insertLineAfter`: bounds-check, then splice `newContent` at
index `lineNumber` (the Go code copies `content[:lineNumber] ++
newContent ++ content[lineNumber:]`). -/
def insertLineAfter (content : List String) (lineNumber : Int)
    (newContent : List String) : Except String (List String) :=
  if lineNumber < 1 ∨ lineNumber > content.length then
    .error "line number out of bounds"
  else
    let index := lineNumber.toNat
    .ok (content.take index ++ newContent ++ content.drop index)

/-- Model of `deleteLine`: bounds-check, then
`slices.Delete(lines, lineNumber-1, lineNumber)`. -/
def deleteLine (content : List String) (lineNumber : Int) :
    Except String (List String) :=
  if lineNumber < 1 ∨ lineNumber > content.length then
    .error "line number out of bounds"
  else
    .ok (content.take (lineNumber - 1).toNat ++ content.drop lineNumber.toNat)

/-- Model of `replaceStringInLine`: bounds-check, then replace in line
`lineNumber` with `strings.Replace` and store it back. -/
def replaceStringInLine (content : List String) (lineNumber : Int)
    (oldString newString : String) (count : Int) :
    Except String (List String) :=
  if lineNumber < 1 ∨ lineNumber > content.length then
    .error "line number out of bounds"
  else
    let index := (lineNumber - 1).toNat
    .ok (content.set index
      (goStringsReplace (content.getD index "") oldString newString count))

/-- Model of `appendToFile`: append `newContent` at the end, never
failing. -/
def appendToFile (content : List String) (newContent : List String) :
    Except String (List String) :=
  .ok (content ++ newContent)

/-! ## Batch editor (`EditFile` in `main.go`) -/

/-- Model of the decoded `Edit` struct: `operation_type`, `line_number`,
`new_content` (the polymorphic string-or-string-array field,

already normalized to a list by `StringOrStringArray.UnmarshalJSON`),
`old_string`, `new_string`, `count`. -/
structure Edit where
  operationType : String
  lineNumber : Int
  newContent : List String
  oldString : String
  newString : String
  count : Int
deriving Repr, DecidableEq

/-- Model of Go `encoding/json` decoding of the optional `count` field
(tagged `omitempty`): an absent field leaves the `int` zero value `0`. -/
def decodeCount (field : Option Int) : Int :=
  field.getD 0

/-- Model of the dispatch `switch` in the `EditFile` loop body, including
the `count == 0` guard placed before `replaceStringInLine` and the
`invalid operation type` default. -/
def applyEdit (lines : List String) (e : Edit) :
    Except String (List String) :=
  if e.operationType = "replace_line" then
    replaceLine lines e.lineNumber e.newContent
  else if e.operationType = "insert_line_before" then
    insertLineBefore lines e.lineNumber e.newContent
  else if e.operationType = "insert_line_after" then
    insertLineAfter lines e.lineNumber e.newContent
  else if e.operationType = "delete_line" then
    deleteLine lines e.lineNumber
  else if e.operationType = "replace_string_in_line" then
    if e.count = 0 then .error "count must be greater than 0"
    else replaceStringInLine lines e.lineNumber e.oldString e.newString e.count
  else if e.operationType = "append_to_file" then
    appendToFile lines e.newContent
  else
    .error ("invalid operation type: " ++ e.operationType)

/-- Model of the `for operationCounter < len(edits)` loop of `EditFile`:
apply the edits in order against the evolving document, aborting on the
first error. -/
def runEdits : List String → List Edit → Except String (List String)
  | lines, [] => .ok lines
  | lines, e :: rest =>
    match applyEdit lines e with
    | .error msg => .error msg
    | .ok lines2 => runEdits lines2 rest

instance {ε α : Type} [DecidableEq ε] [DecidableEq α] :
    DecidableEq (Except ε α)
  | .ok a, .ok b =>
    if h : a = b then .isTrue (congrArg Except.ok h)
    else .isFalse (fun hc => h (Except.ok.inj hc))
  | .ok _, .error _ => .isFalse (fun hc => Except.noConfusion hc)
  | .error _, .ok _ => .isFalse (fun hc => Except.noConfusion hc)
  | .error a, .error b =>
    if h : a = b then .isTrue (congrArg Except.error h)
    else .isFalse (fun hc => h (Except.error.inj hc))

/-- Observable outcome of one `EditFile` call against the modelled file
system: the returned result (`"OK"` or the error message), the content of
the target file after the call (`none` = still absent), and the
directories passed to `os.MkdirAll`, in call order. -/
structure EditFileOutcome where
  result : Except String String
  file : Option String
  mkdirs : List String
deriving Repr, DecidableEq

/-- The path of `EditFile` taken when the read succeeds: run all edits
over the split content; on the first error return it with no write, on
success join the lines and overwrite the file. -/
def editExisting (content : String) (edits : List Edit) : EditFileOutcome :=
  match runEdits (splitLines content) edits with
  | .error msg => ⟨.error msg, some content, []⟩
  | .ok lines => ⟨.ok "OK", some (joinLines lines), []⟩

/-- The bootstrap path of `EditFile`, taken when the read fails with
not-exist and the first edit is `append_to_file`: reject empty
`new_content`, otherwise `createNewFile` makes the parent directory (when
`path.Dir` is not `"."`) and writes `newContent[0]`; the loop then runs
the *remaining* edits over the document split from the still-empty
`fileContent`, and the final write (or an aborting error) follows. -/
def editCreate (path : String) (e0 : Edit) (rest : List Edit) :
    EditFileOutcome :=
  if e0.newContent.length = 0 then
    ⟨.error "no new content provided", none, []⟩
  else
    let dir := goPathDir path
    let mk := if dir = "." then [] else [dir]
    match runEdits (splitLines "") rest with
    | .error msg => ⟨.error msg, some (e0.newContent.headD ""), mk⟩
    | .ok lines => ⟨.ok "OK", some (joinLines lines), mk⟩

/-- Model of `EditFile` (with `createNewFile` inlined via `editCreate`),
acting on a pre-state `fileBefore` of the target path: an empty `path`
gives the error `"invalid input parameters"` (the `edits` list is *not*
checked for emptiness); an existing file is edited by `editExisting`; a
missing file is bootstrapped by `editCreate` when the first edit is
`append_to_file`, and otherwise the not-exist read error is returned. -/
def EditFile (path : String) (edits : List Edit)
    (fileBefore : Option String) : EditFileOutcome :=
  if path = "" then ⟨.error "invalid input parameters", fileBefore, []⟩
  else
    match fileBefore with
    | some content => editExisting content edits
    | none =>
      match edits with
      | [] => ⟨.error "file does not exist", none, []⟩
      | e0 :: rest =>
        if e0.operationType = "append_to_file" then editCreate path e0 rest
        else ⟨.error "file does not exist", none, []⟩

/-! ## Windowed reader (`ReadLines` in `main.go`) -/

/-- Model of the `dropCR` behaviour of `bufio.ScanLines`: a token loses a
terminal carriage return. -/
def dropCR (s : String) : String :=
  if s.data.getLast? = some '\r' then String.mk s.data.dropLast else s

/-- Model of the token stream a `bufio.Scanner` with `ScanLines` produces
from `content`: split at `'\n'`, do not emit a final empty token when the
content ends with a newline (or is empty), strip a trailing `'\r'` from
each token. -/
def scanLines (content : String) : List String :=
  if content = "" then []
  else
    let parts := splitLines content
    let parts := if content.data.getLast? = some '\n' then parts.dropLast
      else parts
    parts.map dropCR

/-- Model of the tag format `fmt.Sprintf("<line-%d>%s</line-%d>", n, s, n)`. -/
def tagLine (lineNum : Int) (text : String) : String :=
  "<line-" ++ toString lineNum ++ ">" ++ text ++ "</line-" ++
    toString lineNum ++ ">"

/-- Model of the scan loop of `ReadLines`: walk every token counting from
`lineNum`, collecting the tagged lines whose number lies in
`[startLine, endLine)`. -/
def collectWindow (startLine endLine : Int) :
    List String → Int → List String
  | [], _ => []
  | t :: rest, lineNum =>
    if startLine ≤ lineNum ∧ lineNum < endLine then
      tagLine lineNum t :: collectWindow startLine endLine rest (lineNum + 1)
    else
      collectWindow startLine endLine rest (lineNum + 1)

/-- All tokens tagged with consecutive line numbers starting at `j`;
`tagFrom 1 toks` is the fully tagged file. -/
def tagFrom (j : Int) : List String → List String
  | [] => []
  | t :: rest => tagLine j t :: tagFrom (j + 1) rest

/-- Model of `ReadLines` acting on the target file pre-state (`none` =
the file does not exist; the returned list stands for the JSON array the
Go function marshals):

1. `startLine < 1` or `endLine < startLine` → `"invalid line numbers"`;
2. `startLine = endLine` → empty list, the file is never opened;
3. otherwise open the file (absent → error), scan all tokens collecting
   the window, and only after the full scan check the final counter
   `1 + number of tokens` against `startLine` and `endLine`. -/
def ReadLines (startLine endLine : Int) (file : Option String) :
    Except String (List String) :=
  if startLine < 1 ∨ endLine < startLine then .error "invalid line numbers"
  else if startLine = endLine then .ok []
  else
    match file with
    | none => .error "file does not exist"
    | some content =>
      let toks := scanLines content
      let collected := collectWindow startLine endLine toks 1
      let lineNum : Int := 1 + toks.length
      if lineNum ≤ startLine then .error "start line beyond file length"
      else if lineNum < endLine then .error "end line beyond file length"
      else .ok collected

/-! ## Helper lemmas -/

theorem getD_set_ne (l : List String) (i j : Nat) (a d : String)
    (hij : i ≠ j) : (l.set i a).getD j d = l.getD j d := by
  induction l generalizing i j with
  | nil => rfl
  | cons c rest ih =>
    cases i with
    | zero =>
      cases j with
      | zero => exact absurd rfl hij
      | succ j => simp [List.getD]
    | succ i =>
      cases j with
      | zero => simp [List.getD]
      | succ j =>
        simpa [List.getD] using ih i j (by omega)

theorem getD_set_self (l : List String) (i : Nat) (a d : String)
    (h : i < l.length) : (l.set i a).getD i d = a := by
  induction l generalizing i with
  | nil => simp at h
  | cons c rest ih =>
    cases i with
    | zero => rfl
    | succ i =>
      simpa [List.getD] using ih i (by simpa using h)

theorem set_getD_self (l : List String) (i : Nat) (d : String) :
    l.set i (l.getD i d) = l := by
  induction l generalizing i with
  | nil => rfl
  | cons c rest ih =>
    cases i with
    | zero => rfl
    | succ i => simpa [List.getD] using ih i

theorem containsSub_nil_left (s : List Char) : containsSub [] s = true := by
  cases s <;> simp [containsSub, List.isPrefixOf]

theorem replaceNonEmpty_no_occurrence (old new : List Char) :
    ∀ (s : List Char) (n : Nat), containsSub old s = false →
      replaceNonEmpty old new s n = s := by
  intro s
  induction s with
  | nil =>
    intro n _
    cases n with
    | zero => rw [replaceNonEmpty]
    | succ n => rw [replaceNonEmpty]
  | cons c rest ih =>
    intro n h
    have hsplit : old.isPrefixOf (c :: rest) = false ∧
        containsSub old rest = false := by
      constructor
      · cases hp : old.isPrefixOf (c :: rest) with
        | false => rfl
        | true => simp [containsSub, hp] at h
      · cases hc : containsSub old rest with
        | false => rfl
        | true => simp [containsSub, hc] at h
    cases n with
    | zero => rw [replaceNonEmpty]
    | succ n =>
      rw [replaceNonEmpty, if_neg (by simp [hsplit.1]), ih (n + 1) hsplit.2]

theorem goStringsReplace_no_occurrence (s old new : String) (c : Int)
    (h : containsSub old.data s.data = false) :
    goStringsReplace s old new c = s := by
  by_cases hA : old = new ∨ c = 0
  · unfold goStringsReplace
    rw [if_pos hA]
  · have hne : old.data ≠ [] := by
      intro he
      rw [he, containsSub_nil_left s.data] at h
      exact Bool.noConfusion h
    have hemp : ¬(old.data.isEmpty = true) := by
      simpa [List.isEmpty_iff] using hne
    unfold goStringsReplace
    rw [if_neg hA, if_neg hemp]
    show String.mk (replaceNonEmpty old.data new.data s.data
      (if c < 0 then s.data.length else c.toNat)) = s
    rw [replaceNonEmpty_no_occurrence old.data new.data s.data _ h]

theorem runEdits_append (pre post : List Edit) :
    ∀ (l doc : List String), runEdits l pre = .ok doc →
      runEdits l (pre ++ post) = runEdits doc post := by
  induction pre with
  | nil =>
    intro l doc h
    cases h
    rfl
  | cons e pre ih =>
    intro l doc h
    rw [List.cons_append, runEdits]
    rw [runEdits] at h
    cases hap : applyEdit l e with
    | error msg => rw [hap] at h; exact absurd h (by simp)
    | ok l2 =>
      rw [hap] at h
      exact ih l2 doc h

theorem applyEdit_count_zero (lines : List String) (e : Edit)
    (hop : e.operationType = "replace_string_in_line") (hc : e.count = 0) :
    applyEdit lines e = .error "count must be greater than 0" := by
  unfold applyEdit
  rw [hop]
  rw [if_neg (by decide), if_neg (by decide), if_neg (by decide),
    if_neg (by decide), if_pos rfl, if_pos hc]

theorem collectWindow_eq_tagFrom (s e : Int) :
    ∀ (toks : List String) (j : Int), s ≤ j →
      j + toks.length ≤ e → collectWindow s e toks j = tagFrom j toks := by
  intro toks
  induction toks with
  | nil => intro j _ _; rfl
  | cons t rest ih =>
    intro j hs he
    have hlt : j < e := by
      have : (rest.length : Int) + 1 = ((t :: rest).length : Int) := by
        simp
      omega
    rw [collectWindow, if_pos ⟨hs, hlt⟩, tagFrom,
      ih (j + 1) (by omega) (by
        have : ((t :: rest).length : Int) = (rest.length : Int) + 1 := by
          simp
        omega)]

theorem EditFile_some (path content : String) (edits : List Edit)
    (hp : path ≠ "") :
    EditFile path edits (some content) = editExisting content edits := by
  unfold EditFile
  rw [if_neg hp]

theorem EditFile_none_cons (path : String) (e0 : Edit) (rest : List Edit)
    (hp : path ≠ "") (hop : e0.operationType = "append_to_file") :
    EditFile path (e0 :: rest) none = editCreate path e0 rest := by
  unfold EditFile
  rw [if_neg hp]
  show (if e0.operationType = "append_to_file" then editCreate path e0 rest
    else ⟨.error "file does not exist", none, []⟩) = editCreate path e0 rest
  rw [if_pos hop]

theorem editCreate_run (path : String) (e0 : Edit) (rest : List Edit)
    (hnc : ¬(e0.newContent.length = 0)) :
    editCreate path e0 rest =
      (match runEdits (splitLines "") rest with
       | .error msg => ⟨.error msg, some (e0.newContent.headD ""),
           if goPathDir path = "." then [] else [goPathDir path]⟩
       | .ok lines => ⟨.ok "OK", some (joinLines lines),
           if goPathDir path = "." then [] else [goPathDir path]⟩) := by
  unfold editCreate
  rw [if_neg hnc]

theorem ReadLines_some (s e : Int) (content : String)
    (h1 : ¬(s < 1 ∨ e < s)) (h2 : s ≠ e) :
    ReadLines s e (some content) =
      (if 1 + ((scanLines content).length : Int) ≤ s then
        .error "start line beyond file length"
      else if 1 + ((scanLines content).length : Int) < e then
        .error "end line beyond file length"
      else .ok (collectWindow s e (scanLines content) 1)) := by
  unfold ReadLines
  rw [if_neg h1, if_neg h2]

/-! ## Claim theorems -/

/-- Claim C1 (status: code bug).  The spec requires that `applyBatch` on
the nonexistent path `x/y.txt` with the single batch
`[CreateFile("hello")]` creates directory `x/` and leaves the file
containing exactly `"hello"`.  The code does create `x/` and write
`"hello"` via `createNewFile`, but then falls through to the main loop
with `fileContent` still `""` and unconditionally rewrites the file with
the serialized empty document, so the call returns `"OK"` with the file
left empty. -/
theorem editFile_create_then_clobber :
    EditFile "x/y.txt" [⟨"append_to_file", 0, ["hello"], "", "", 0⟩] none =
      ⟨.ok "OK", some "", ["x"]⟩ := by
  decide

/-- Claim C2 (status: corrected).  Amended claim: when some operation in
the batch fails, `applyBatch` returns that error and performs no final
write; if the target file existed before the call it is left byte-for-byte
unchanged, but when the file did not exist and the batch began with a
`CreateFile`, the bootstrap write has already created the file (with the
initial content), so the disk is not identical to its pre-call state. -/
theorem editFile_failure_atomicity :
    (∀ (path content msg : String) (edits : List Edit), path ≠ "" →
      runEdits (splitLines content) edits = .error msg →
      EditFile path edits (some content) = ⟨.error msg, some content, []⟩) ∧
    (∀ (path msg : String) (e0 : Edit) (rest : List Edit), path ≠ "" →
      e0.operationType = "append_to_file" → e0.newContent ≠ [] →
      runEdits (splitLines "") rest = .error msg →
      (EditFile path (e0 :: rest) none).result = .error msg ∧
      (EditFile path (e0 :: rest) none).file =
        some (e0.newContent.headD "")) := by
  constructor
  · intro path content msg edits hp h
    rw [EditFile_some path content edits hp]
    unfold editExisting
    rw [h]
  · intro path msg e0 rest hp hop hnc h
    have hlen : ¬(e0.newContent.length = 0) := by
      simpa [List.length_eq_zero] using hnc
    rw [EditFile_none_cons path e0 rest hp hop,
      editCreate_run path e0 rest hlen, h]
    exact ⟨rfl, rfl⟩

/-- Closed instance of the amended claim C2. -/
theorem editFile_failure_atomicity_witness :
    EditFile "a.txt" [⟨"delete_line", 7, [], "", "", 0⟩] (some "x\ny") =
      ⟨.error "line number out of bounds", some "x\ny", []⟩ :=
  editFile_failure_atomicity.1 "a.txt" "x\ny" "line number out of bounds"
    [⟨"delete_line", 7, [], "", "", 0⟩] (by decide) (by decide)

/-- Counterexample to claim C2 as stated: on the nonexistent path
`x/y.txt`, the batch `[CreateFile("hello"), DeleteLine(5)]` fails with the
out-of-bounds error, yet after the call the file exists on disk with
content `"hello"`, so the disk is not byte-identical to its (file-absent)
state before the call. -/
theorem editFile_bootstrap_breaks_atomicity :
    (EditFile "x/y.txt" [⟨"append_to_file", 0, ["hello"], "", "", 0⟩,
      ⟨"delete_line", 5, [], "", "", 0⟩] none).result =
        .error "line number out of bounds" ∧
    (EditFile "x/y.txt" [⟨"append_to_file", 0, ["hello"], "", "", 0⟩,
      ⟨"delete_line", 5, [], "", "", 0⟩] none).file = some "hello" := by
  decide

/-- Claim C3 (status: corrected).  Amended claim: for `1 ≤ n ≤ len(doc)`,
`InsertBefore(n, content)` splices `content` at the 0-based index
`max (n - len(content)) 0` — which equals `n - 1` only when `content` is
a single line — increasing the length by `len(content)` and removing or
reordering no existing line. -/
theorem insertLineBefore_splices_at_clamped_index (doc newContent : List String)
    (n : Int) (h1 : 1 ≤ n) (h2 : n ≤ doc.length) :
    insertLineBefore doc n newContent =
      .ok (doc.take (max (n - newContent.length) 0).toNat ++ newContent ++
        doc.drop (max (n - newContent.length) 0).toNat) ∧
    doc.take (max (n - newContent.length) 0).toNat ++
      doc.drop (max (n - newContent.length) 0).toNat = doc ∧
    (doc.take (max (n - newContent.length) 0).toNat ++ newContent ++
        doc.drop (max (n - newContent.length) 0).toNat).length =
      doc.length + newContent.length := by
  refine ⟨?_, List.take_append_drop _ _, ?_⟩
  · unfold insertLineBefore
    rw [if_neg (by omega)]
  · have hk : (max (n - newContent.length) 0).toNat ≤ doc.length := by omega
    simp [List.length_take, List.length_drop]
    omega

/-- Closed instance of the amended claim C3. -/
theorem insertLineBefore_splices_at_clamped_index_witness :
    insertLineBefore ["a", "b"] 1 ["x"] = .ok ["x", "a", "b"] ∧
    (["a", "b"] : List String).take 0 ++ (["a", "b"] : List String).drop 0 =
      ["a", "b"] ∧
    (["x", "a", "b"] : List String).length = 2 + 1 := by
  have h := insertLineBefore_splices_at_clamped_index ["a", "b"] ["x"] 1
    (by decide) (by decide)
  exact ⟨by rw [h.1]; decide, by decide, by decide⟩

/-- Counterexample to claim C3 as stated: inserting the two lines
`["x", "y"]` before line 2 of `["a", "b"]` should, per the claim, splice
at 0-based index 1 and produce `["a", "x", "y", "b"]`; the code instead
splices at `max (2 - 2) 0 = 0` and produces `["x", "y", "a", "b"]`. -/
theorem insertLineBefore_multiline_counterexample :
    insertLineBefore ["a", "b"] 2 ["x", "y"] = .ok ["x", "y", "a", "b"] ∧
    insertLineBefore ["a", "b"] 2 ["x", "y"] ≠ .ok ["a", "x", "y", "b"] := by
  decide

/-- Claim C4 (status: code bug).  The spec — and the repository's own
`TestEditFileEdgeCases` — require `applyBatch` to reject an empty
operations list.  The code only rejects an empty path: with an existing
file and an empty `edits` list it runs the (empty) loop, rewrites the file
with the identical joined content, and returns `"OK"`.  Evaluated here at
the test fixture `test.txt`. -/
theorem editFile_empty_edits_accepted :
    EditFile "test.txt" [] (some "test1\ntest2\ntest3") =
      ⟨.ok "OK", some "test1\ntest2\ntest3", []⟩ ∧
    EditFile "" [] (some "test1\ntest2\ntest3") =
      ⟨.error "invalid input parameters", some "test1\ntest2\ntest3", []⟩ := by
  decide

/-- Claim C5 (status: confirmed).  For `1 ≤ n ≤ len(doc)` and exactly one
line of new content `[x]`, `insert_line_before` splices at 0-based index
`n - 1`: the implemented index `lineNumber - length(newContent)` coincides
with the documented insert-before-line-n contract. -/
theorem insertLineBefore_single_line (doc : List String) (n : Int)
    (x : String) (h1 : 1 ≤ n) (h2 : n ≤ doc.length) :
    insertLineBefore doc n [x] =
      .ok (doc.take (n - 1).toNat ++ [x] ++ doc.drop (n - 1).toNat) := by
  unfold insertLineBefore
  rw [if_neg (by omega)]
  have hidx : (max (n - ([x] : List String).length) 0).toNat =
      (n - 1).toNat := by
    simp only [List.length_cons, List.length_nil]
    omega
  rw [hidx]

/-- Closed instance of claim C5. -/
theorem insertLineBefore_single_line_witness :
    insertLineBefore ["a", "b", "c"] 2 ["x"] = .ok ["a", "x", "b", "c"] := by
  rw [insertLineBefore_single_line ["a", "b", "c"] 2 "x" (by decide) (by decide)]
  decide

/-- Claim C6 (status: confirmed).  For `1 ≤ n ≤ len(doc)` and
`count ≠ 0`, the `replace_string_in_line` dispatch succeeds, keeps the
document length, changes no line other than line `n`, rewrites line `n`
with `goStringsReplace` (the model of Go `strings.Replace`: up to `count`
leftmost non-overlapping occurrences, `-1` meaning unlimited), and is a
no-op — not an error — when `old` does not occur in line `n`. -/
theorem replaceStringInLine_contract (doc : List String) (n : Int)
    (old new : String) (c : Int) (h1 : 1 ≤ n) (h2 : n ≤ doc.length)
    (hc : c ≠ 0) :
    ∃ res,
      applyEdit doc ⟨"replace_string_in_line", n, [], old, new, c⟩ = .ok res ∧
      res.length = doc.length ∧
      (∀ i : Nat, i ≠ (n - 1).toNat → res.getD i "" = doc.getD i "") ∧
      res.getD (n - 1).toNat "" =
        goStringsReplace (doc.getD (n - 1).toNat "") old new c ∧
      (containsSub old.data (doc.getD (n - 1).toNat "").data = false →
        res = doc) := by
  refine ⟨doc.set (n - 1).toNat
    (goStringsReplace (doc.getD (n - 1).toNat "") old new c), ?_, ?_, ?_, ?_, ?_⟩
  · show (if c = 0 then Except.error "count must be greater than 0"
      else replaceStringInLine doc n old new c) = _
    rw [if_neg hc]
    unfold replaceStringInLine
    rw [if_neg (by omega)]
  · simp
  · intro i hi
    exact getD_set_ne doc (n - 1).toNat i _ "" (fun h => hi h.symm)
  · exact getD_set_self doc (n - 1).toNat _ "" (by omega)
  · intro habs
    rw [goStringsReplace_no_occurrence _ _ _ _ habs]
    exact set_getD_self doc (n - 1).toNat ""

/-- Closed instance of claim C6: replacing an absent substring with
`count = -1` succeeds as a no-op. -/
theorem replaceStringInLine_contract_witness :
    ∃ res,
      applyEdit ["ab", "cd"] ⟨"replace_string_in_line", 1, [], "z", "w", -1⟩ =
        .ok res ∧
      res.length = (["ab", "cd"] : List String).length ∧
      (∀ i : Nat, i ≠ ((1 : Int) - 1).toNat →
        res.getD i "" = (["ab", "cd"] : List String).getD i "") ∧
      res.getD ((1 : Int) - 1).toNat "" =
        goStringsReplace ((["ab", "cd"] : List String).getD
          ((1 : Int) - 1).toNat "") "z" "w" (-1) ∧
      (containsSub "z".data ((["ab", "cd"] : List String).getD
          ((1 : Int) - 1).toNat "").data = false → res = ["ab", "cd"]) :=
  replaceStringInLine_contract ["ab", "cd"] 1 "z" "w" (-1) (by decide)
    (by decide) (by decide)

/-- Claim C7 (status: confirmed).  For `1 ≤ n ≤ len(doc)` and a single
line `x`, `InsertAfter(n, [x])` followed by `DeleteLine(n+1)` restores the
document exactly. -/
theorem insertAfter_deleteLine_roundtrip (doc : List String) (n : Int)
    (x : String) (h1 : 1 ≤ n) (h2 : n ≤ doc.length) :
    ∃ mid, insertLineAfter doc n [x] = .ok mid ∧
      deleteLine mid (n + 1) = .ok doc := by
  refine ⟨doc.take n.toNat ++ [x] ++ doc.drop n.toNat, ?_, ?_⟩
  · unfold insertLineAfter
    rw [if_neg (by omega)]
  · have hk : n.toNat ≤ doc.length := by omega
    have hmidlen : (doc.take n.toNat ++ [x] ++ doc.drop n.toNat).length =
        doc.length + 1 := by
      simp [List.length_take, List.length_drop]
      omega
    unfold deleteLine
    rw [if_neg (by rw [hmidlen]; omega)]
    have e1 : (n + 1 - 1).toNat = n.toNat := by omega
    have e2 : (n + 1).toNat = n.toNat + 1 := by omega
    rw [e1, e2]
    have htake : (doc.take n.toNat ++ [x] ++ doc.drop n.toNat).take n.toNat =
        doc.take n.toNat := by
      rw [List.append_assoc]
      exact List.take_left' (by simp [List.length_take]; omega)
    have hdrop : (doc.take n.toNat ++ [x] ++ doc.drop n.toNat).drop
        (n.toNat + 1) = doc.drop n.toNat := by
      exact List.drop_left' (by simp [List.length_take]; omega)
    rw [htake, hdrop, List.take_append_drop]

/-- Closed instance of claim C7. -/
theorem insertAfter_deleteLine_roundtrip_witness :
    ∃ mid, insertLineAfter ["a", "b"] 1 ["x"] = .ok mid ∧
      deleteLine mid ((1 : Int) + 1) = .ok ["a", "b"] :=
  insertAfter_deleteLine_roundtrip ["a", "b"] 1 "x" (by decide) (by decide)

/-- Claim C8 (status: confirmed).  For a file whose scanner produces
exactly `N` tokens, `readWindow(path, 1, N+1)` succeeds with all `N`
lines tagged `<line-1>…</line-1>` through `<line-N>…</line-N>` in order,
while `readWindow(path, 1, N+2)` fails with one of the two post-scan
`OutOfRange` errors (the end-line error whenever `N ≥ 1`; the start-line
error for the empty file), both checks being performed on the counter
value reached only after the full scan. -/
theorem readLines_full_window_then_overflow (content : String) :
    ReadLines 1 (((scanLines content).length : Int) + 1) (some content) =
      .ok (tagFrom 1 (scanLines content)) ∧
    ∃ msg, ReadLines 1 (((scanLines content).length : Int) + 2)
        (some content) = .error msg ∧
      (msg = "start line beyond file length" ∨
        msg = "end line beyond file length") := by
  constructor
  · by_cases hN : (scanLines content).length = 0
    · rw [hN]
      have htoks : scanLines content = [] := List.length_eq_zero.mp hN
      rw [htoks]
      unfold ReadLines
      rw [if_neg (by omega), if_pos (by norm_num)]
      rfl
    · rw [ReadLines_some 1 (((scanLines content).length : Int) + 1) content
        (by omega) (by omega)]
      rw [if_neg (by omega), if_neg (by omega)]
      rw [collectWindow_eq_tagFrom 1 (((scanLines content).length : Int) + 1)
        (scanLines content) 1 (by omega) (by omega)]
  · by_cases hN : (scanLines content).length = 0
    · refine ⟨"start line beyond file length", ?_, Or.inl rfl⟩
      rw [ReadLines_some 1 (((scanLines content).length : Int) + 2) content
        (by omega) (by omega)]
      rw [if_pos (by omega)]
    · refine ⟨"end line beyond file length", ?_, Or.inr rfl⟩
      rw [ReadLines_some 1 (((scanLines content).length : Int) + 2) content
        (by omega) (by omega)]
      rw [if_neg (by omega), if_pos (by omega)]

/-- Claim C9 (status: confirmed).  `readWindow(path, k, k)` with `k ≥ 1`
returns an empty list successfully for every file state — including a
nonexistent file, since the short-circuit precedes the open — and any
call with `startLine < 1` or `endLine < startLine` fails with the
`InvalidArgument` error `"invalid line numbers"`. -/
theorem readLines_empty_window_or_invalid :
    (∀ (k : Int) (file : Option String), 1 ≤ k →
      ReadLines k k file = .ok []) ∧
    (∀ (s e : Int) (file : Option String), s < 1 ∨ e < s →
      ReadLines s e file = .error "invalid line numbers") := by
  constructor
  · intro k file hk
    unfold ReadLines
    rw [if_neg (by omega), if_pos rfl]
  · intro s e file h
    unfold ReadLines
    rw [if_pos h]

/-- Closed instance of claim C9: an empty window on a nonexistent file,
and an inverted range. -/
theorem readLines_empty_window_or_invalid_witness :
    ReadLines 5 5 none = .ok [] ∧
    ReadLines 3 2 none = .error "invalid line numbers" :=
  ⟨readLines_empty_window_or_invalid.1 5 none (by decide),
   readLines_empty_window_or_invalid.2 3 2 none (by decide)⟩

/-- Claim C10 (status: corrected).  Amended claim: an absent `count`
field decodes to the zero value `0` — never to the schema-documented
default `1` — and a batch reaching such a `replace_string_in_line`
operation (all earlier operations having succeeded) against an existing
file fails with `"count must be greater than 0"` with the file left
untouched; however, when the target file did not exist and the batch
began with `append_to_file`, the bootstrap write has already created the
file before that failure. -/
theorem absent_count_rejected_not_defaulted :
    decodeCount none = 0 ∧ decodeCount none ≠ 1 ∧
    (∀ (path content : String) (pre post : List Edit) (e : Edit)
        (doc : List String), path ≠ "" →
      e.operationType = "replace_string_in_line" → e.count = decodeCount none →
      runEdits (splitLines content) pre = .ok doc →
      EditFile path (pre ++ e :: post) (some content) =
        ⟨.error "count must be greater than 0", some content, []⟩) := by
  refine ⟨rfl, by decide, ?_⟩
  intro path content pre post e doc hp hop hc hpre
  rw [EditFile_some path content (pre ++ e :: post) hp]
  unfold editExisting
  rw [runEdits_append pre (e :: post) (splitLines content) doc hpre]
  rw [runEdits, applyEdit_count_zero doc e hop hc]

/-- Closed instance of the amended claim C10. -/
theorem absent_count_rejected_not_defaulted_witness :
    decodeCount none = 0 ∧
    EditFile "a.txt"
      [⟨"replace_string_in_line", 1, [], "a", "b", decodeCount none⟩]
      (some "x") =
        ⟨.error "count must be greater than 0", some "x", []⟩ :=
  ⟨absent_count_rejected_not_defaulted.1,
   absent_count_rejected_not_defaulted.2.2 "a.txt" "x" []
     [] ⟨"replace_string_in_line", 1, [], "a", "b", decodeCount none⟩
     ["x"] (by decide) rfl rfl rfl⟩

/-- Counterexample to claim C10 as stated: in the batch
`[CreateFile("h"), ReplaceSubstring(1, "a", "b", absent count)]` against a
nonexistent path, the batch does fail with the count error, but only
after `createNewFile` has already written the file to disk — so the
failure does not happen "before any write occurs". -/
theorem absent_count_write_before_failure :
    (EditFile "x/y.txt"
      [⟨"append_to_file", 0, ["h"], "", "", 0⟩,
       ⟨"replace_string_in_line", 1, [], "a", "b", decodeCount none⟩]
      none).result = .error "count must be greater than 0" ∧
    (EditFile "x/y.txt"
      [⟨"append_to_file", 0, ["h"], "", "", 0⟩,
       ⟨"replace_string_in_line", 1, [], "a", "b", decodeCount none⟩]
      none).file = some "h" := by
  decide

end CodeEditingAgent
